import Mathlib

/-!
Shallow embedding of the execution front-end in
`src/python/pants/engine/scheduler.py`: the ExecutionRequest and
ExecutionResult protocol, root construction, outcome normalization,
error aggregation, file invalidation and the Scheduler construction
guard. The native engine (Rust side) is abstracted as a record of
functions; everything the Python layer does is translated directly.
-/

set_option autoImplicit false

namespace Pants

/--
Model of a Python object as it crosses this layer: either a plain value
(product values computed by the engine) or an exception instance.
Exception identity (`id()` in Python, which is what membership in a
`set` of exceptions compares, since `BaseException` inherits the default
identity `__eq__`/`__hash__`) is modelled by the `ident` field: two
distinct exception objects always carry distinct `ident`s, so structural
equality of the model coincides with Python object identity.
`isTaskError` records whether the object is an instance of
`pants.base.exceptions.TaskError` (the class `execute` catches).
-/
inductive PyObj where
  | val : Nat → PyObj
  | exc : (ident : Nat) → (typeName : String) → (message : String) → (isTaskError : Bool) → PyObj
deriving DecidableEq

/-- Python `type(t).__name__`. -/
def pyTypeName : PyObj → String
  | .val _ => "int"
  | .exc _ t _ _ => t

/-- Python `str(t)`; for an exception this is its message. -/
def pyStr : PyObj → String
  | .val n => toString n
  | .exc _ _ m _ => m

/-- Whether the object is an instance of `TaskError` (what `except TaskError` catches). -/
def pyIsTaskError : PyObj → Bool
  | .val _ => false
  | .exc _ _ _ b => b

/-- Subjects are opaque values; modelled as naturals. -/
abbrev Subject := Nat

/-- Product types are opaque type descriptors; modelled as naturals. -/
abbrev Product := Nat

/-- A root is one (subject, product) pair, as in `ExecutionRequest.roots`. -/
abbrev Root := Subject × Product

/--
The `State` hierarchy from `pants.engine.nodes` as seen by this module:
`Return(value)`, `Throw(exc)`, and `Other` standing for any further
`State` subclass (its type name recorded), which the state-validation
step of `products_request` defends against.
-/
inductive State where
  | Return : PyObj → State
  | Throw : PyObj → State
  | Other : String → State
deriving DecidableEq

/-- Python `type(state) in (Throw, Return)`. -/
def State.isReturnOrThrow : State → Bool
  | .Return _ => true
  | .Throw _ => true
  | .Other _ => false

/-- Python `type(state) is Throw`. -/
def State.isThrow : State → Bool
  | .Throw _ => true
  | _ => false

/-- Python `type(state).__name__`. -/
def State.typeName : State → String
  | .Return _ => "Return"
  | .Throw _ => "Throw"
  | .Other t => t

/-- The `.value` attribute of a `Return`; the code only reads it after
establishing every state is a `Return`, so the other branches are never
reached there. -/
def State.value : State → PyObj
  | .Return v => v
  | _ => PyObj.val 0

/-- The `.exc` attribute of a `Throw`; the code only reads it on states
filtered by `type(state) is Throw`, so the other branches are never
reached there. -/
def State.exc : State → PyObj
  | .Throw e => e
  | _ => PyObj.val 0

/-- One raw root as returned by `scheduler_execute` on the native side:
a state tag and a state value. -/
structure RawRoot where
  state_tag : Nat
  state_value : PyObj
deriving DecidableEq

/--
The native engine boundary (`self._native.lib`), abstracted as a record
of functions:
* `resolvable`/`resolveErr`: whether `execution_add_root_select`
  succeeds for a root, and the engine-reported error raised otherwise;
* `run`: `scheduler_execute` on the registered roots, returning raw
  roots, or the exception the native call raises;
* `traceLines`: the lines `graph_trace` yields for a request;
* `graph_invalidate`: node-invalidation count for a set of paths.
-/
structure Native where
  resolvable : Root → Bool
  resolveErr : Root → PyObj
  run : List Root → Except PyObj (List RawRoot)
  traceLines : List Root → List String
  graph_invalidate : Finset String → Nat

/-- A fresh `ValueError(msg)` instance (identity irrelevant: these are
synthesized and never deduplicated). -/
def valueErrorObj (msg : String) : PyObj :=
  PyObj.exc 0 "ValueError" msg false

/-- A fresh `ExecutionError(msg)` instance. -/
def executionErrorObj (msg : String) : PyObj :=
  PyObj.exc 0 "ExecutionError" msg false

/--
`Scheduler._run_and_return_roots`: state tag 1 becomes `Return`, tags
2, 3 and 4 become `Throw`, and any other tag raises
`ValueError('Unrecognized State type ...')` (the repr of the raw root
in the message is elided). The Python comparison `state_tag is 1` acts
as equality on these small interned ints.
-/
def _run_and_return_roots : List RawRoot → Except PyObj (List State)
  | [] => Except.ok []
  | r :: rest =>
    if r.state_tag = 1 then
      (_run_and_return_roots rest).map (fun states => State.Return r.state_value :: states)
    else if r.state_tag = 2 ∨ r.state_tag = 3 ∨ r.state_tag = 4 then
      (_run_and_return_roots rest).map (fun states => State.Throw r.state_value :: states)
    else
      Except.error (valueErrorObj
        ("Unrecognized State type `" ++ toString r.state_tag ++ "` on: <raw root>"))

/-- The root tuple of `SchedulerSession.execution_request`:
`tuple((s, p) for s in subjects for p in products)`. -/
def rootsFor (products : List Product) (subjects : List Subject) : List Root :=
  subjects.flatMap (fun s => products.map (fun p => (s, p)))

/--
The loop `for subject, product in roots: add_root_selection(...)`:
registers each root with the native request in order, returning the
registration log, or raising the engine-reported error at the first
unresolvable root (`_raise_or_return`).
-/
def add_root_selections (native : Native) : List Root → Except PyObj (List Root)
  | [] => Except.ok []
  | r :: rest =>
    if native.resolvable r then
      (add_root_selections native rest).map (fun log => r :: log)
    else
      Except.error (native.resolveErr r)

/-- `ExecutionRequest(roots, native)`: the Python-side roots tuple plus
the native request handle, modelled by the list of roots registered
engine-side in call order. -/
structure ExecutionRequest where
  roots : List Root
  registered : List Root
deriving DecidableEq

/-- `SchedulerSession.execution_request(products, subjects)`. -/
def execution_request (native : Native) (products : List Product) (subjects : List Subject) :
    Except PyObj ExecutionRequest :=
  (add_root_selections native (rootsFor products subjects)).map
    (fun log => ExecutionRequest.mk (rootsFor products subjects) log)

/-- `ExecutionResult(error, root_products)`. -/
structure ExecutionResult where
  error : Option PyObj
  root_products : Option (List (Root × State))
deriving DecidableEq

/-- `ExecutionResult.finished(root_products)`: `error=None`. -/
def ExecutionResult.finished (root_products : List (Root × State)) : ExecutionResult :=
  ExecutionResult.mk none (some root_products)

/-- `ExecutionResult.failure(error)`: `root_products=None`. -/
def ExecutionResult.failure (error : PyObj) : ExecutionResult :=
  ExecutionResult.mk (some error) none

/-- `SchedulerSession.schedule`: runs the native request and zips the
request roots positionally against the returned states (Python `zip`
truncates to the shorter list, as `List.zip` does). -/
def schedule (native : Native) (request : ExecutionRequest) :
    Except PyObj (List (Root × State)) :=
  match native.run request.registered with
  | Except.error e => Except.error e
  | Except.ok raws =>
    match _run_and_return_roots raws with
    | Except.error e => Except.error e
    | Except.ok states => Except.ok (request.roots.zip states)

/-- `SchedulerSession.execute`: `ExecutionResult.finished` on success,
`ExecutionResult.failure` when `schedule` raises a `TaskError`; any
other exception propagates. -/
def execute (native : Native) (request : ExecutionRequest) :
    Except PyObj ExecutionResult :=
  match schedule native request with
  | Except.ok root_products => Except.ok (ExecutionResult.finished root_products)
  | Except.error e =>
    if pyIsTaskError e then Except.ok (ExecutionResult.failure e) else Except.error e

/-- The tuple `unknown_state_types` computed in `products_request`. -/
def unknown_state_types (root_products : List (Root × State)) : List String :=
  (root_products.filter (fun rs => !rs.2.isReturnOrThrow)).map (fun rs => rs.2.typeName)

/--
Modelled from the spec: `State.raise_unrecognized` lives in
`pants.engine.nodes`, which is not under `src/`; per the spec, an
unrecognized outcome tag "is an internal invariant violation and must
raise immediately (never silently coerced)", so it is modelled as
raising an exception naming the unrecognized state types.
-/
def raise_unrecognized_obj (types : List String) : PyObj :=
  PyObj.exc 0 "ValueError"
    ("Unrecognized scheduler state types: " ++ String.intercalate ", " types) false

/-- The message of the aggregate `ExecutionError` for multiple distinct
exceptions: each entry rendered as `type(t).__name__ ++ ": " ++ str(t)`. -/
def multipleExceptionsMsg (unique_exceptions : List PyObj) : String :=
  "Multiple exceptions encountered:\n  " ++
    String.intercalate "\n  "
      (unique_exceptions.map (fun t => pyTypeName t ++ ": " ++ pyStr t))

/-- The `defaultdict(list)` loop of `products_request`: appends
`state.value` to the list keyed by the root product, in root order.
Modelled as a total function, which is what a `defaultdict` lookup is:
a missing key yields `[]`, never a `KeyError`. -/
def productResults (root_products : List (Root × State)) : Product → List PyObj :=
  root_products.foldl
    (fun m rs => fun q => if q = rs.1.2 then m q ++ [rs.2.value] else m q)
    (fun _ => [])

/--
`SchedulerSession.products_request(products, subjects)`, following the
source step by step: build the request, execute, re-raise
`result.error`, validate states, handle Throws (trace mode, single
distinct exception passthrough, aggregate error), else build the
product map. `include_trace_on_error` is the Scheduler flag of the same
name. The `unique_exceptions` Python `set` is modelled by `List.dedup`
on the model of object identity.
-/
def products_request (native : Native) (include_trace_on_error : Bool)
    (products : List Product) (subjects : List Subject) :
    Except PyObj (Product → List PyObj) :=
  match execution_request native products subjects with
  | Except.error e => Except.error e
  | Except.ok request =>
    match execute native request with
    | Except.error e => Except.error e
    | Except.ok result =>
      match result.error with
      | some e => Except.error e
      | none =>
        match result.root_products with
        | none =>
          -- iterating `None` would be a TypeError; unreachable from `execute`.
          Except.error (PyObj.exc 0 "TypeError" "NoneType object is not iterable" false)
        | some root_products =>
          if unknown_state_types root_products = [] then
            match (root_products.map Prod.snd).filter State.isThrow with
            | [] => Except.ok (productResults root_products)
            | t :: rest =>
              if include_trace_on_error then
                Except.error (executionErrorObj
                  ("Received unexpected Throw state(s):\n" ++
                    String.intercalate "\n" (native.traceLines request.registered)))
              else
                let unique_exceptions := ((t :: rest).map State.exc).dedup
                if unique_exceptions.length = 1 then
                  Except.error t.exc
                else
                  Except.error (executionErrorObj (multipleExceptionsMsg unique_exceptions))
          else
            Except.error (raise_unrecognized_obj (unknown_state_types root_products))

/-- `SchedulerSession.product_request(product, subjects)`:
`products_request([product], subjects)[product]`. -/
def product_request (native : Native) (include_trace_on_error : Bool)
    (product : Product) (subjects : List Subject) : Except PyObj (List PyObj) :=
  (products_request native include_trace_on_error [product] subjects).map
    (fun m => m product)

/--
`os.path.dirname` for POSIX paths, as `posixpath.dirname` computes it:
keep everything up to and including the last slash, then strip trailing
slashes unless the prefix is entirely slashes.
-/
def dirname (p : String) : String :=
  let head := (p.toList.reverse.dropWhile (fun c => c != '/')).reverse
  if head.isEmpty then ""
  else if head.all (fun c => c == '/') then String.mk head
  else String.mk ((head.reverse.dropWhile (fun c => c == '/')).reverse)

/--
`Scheduler.invalidate_files(direct_filenames)`:
`filenames = set(direct_filenames)` followed by
`filenames.update(os.path.dirname(f) for f in direct_filenames)`,
then `graph_invalidate` on that set, returning the engine-reported
count of invalidated nodes.
-/
def invalidate_files (native : Native) (direct_filenames : List String) : Nat :=
  let filenames : Finset String :=
    direct_filenames.toFinset ∪ (direct_filenames.map dirname).toFinset
  native.graph_invalidate filenames

/-- The two `execution_options` fields `Scheduler.__init__` consults. -/
structure ExecutionOptions where
  remote_execution_server : Option String
  remote_store_server : Option String
deriving DecidableEq

/-- Python truthiness of an optional string option (`None` and `""` are falsy). -/
def pyTruthyOptStr : Option String → Bool
  | none => false
  | some s => !s.isEmpty

/-- The phases of `Scheduler.__init__` after the remote-options guard,
in source order. -/
inductive InitEffect where
  | rule_index_created
  | tasks_registered (ruleCount : Nat)
  | native_scheduler_created
  | ruleset_validated
deriving DecidableEq

/--
`Scheduler.__init__`, at phase granularity: the guard
`if execution_options.remote_execution_server and not
execution_options.remote_store_server: raise ValueError(...)` runs
first; only past it does the constructor create the RuleIndex, register
rules on the native tasks object, create the native scheduler, and (if
`validate`) validate the ruleset. The returned effect list records
which phases ran.
-/
def scheduler_init (options : ExecutionOptions) (ruleCount : Nat) (validate : Bool) :
    List InitEffect × Except String Unit :=
  if pyTruthyOptStr options.remote_execution_server &&
      !pyTruthyOptStr options.remote_store_server then
    ([], Except.error "Cannot set remote execution server without setting remote store server")
  else
    ([InitEffect.rule_index_created, InitEffect.tasks_registered ruleCount,
        InitEffect.native_scheduler_created] ++
      (if validate then [InitEffect.ruleset_validated] else []),
     Except.ok ())

/-- A concrete native engine whose run returns a fixed raw-root list;
every root resolvable; used to instantiate theorems at concrete inputs. -/
def constNative (raws : List RawRoot) : Native :=
  Native.mk (fun _ => true) (fun _ => PyObj.val 0) (fun _ => Except.ok raws)
    (fun _ => []) (fun _ => 0)

/-- A concrete native engine computing, for every root, a `Return` of
`f root` (state tag 1); every root resolvable. -/
def fnNative (f : Root → Nat) : Native :=
  Native.mk (fun _ => true) (fun _ => PyObj.val 0)
    (fun roots => Except.ok (roots.map (fun r => RawRoot.mk 1 (PyObj.val (f r)))))
    (fun _ => []) (fun _ => 0)

/-! ### Helper lemmas -/

theorem exceptMap_ok {α β γ : Type} (f : β → γ) (x : Except α β) (y : γ)
    (h : x.map f = Except.ok y) : ∃ a, x = Except.ok a ∧ y = f a := by
  cases x with
  | error e => simp [Except.map] at h
  | ok a => exact ⟨a, rfl, by simpa [Except.map] using h.symm⟩

theorem add_root_selections_ok (native : Native) (roots : List Root)
    (h : ∀ r ∈ roots, native.resolvable r = true) :
    add_root_selections native roots = Except.ok roots := by
  induction roots with
  | nil => rfl
  | cons r rest ih =>
    have hr : native.resolvable r = true := h r (List.mem_cons_self r rest)
    have hrest := ih (fun x hx => h x (List.mem_cons_of_mem r hx))
    simp [add_root_selections, hr, hrest, Except.map]

theorem execution_request_ok (native : Native) (products : List Product)
    (subjects : List Subject)
    (h : ∀ r ∈ rootsFor products subjects, native.resolvable r = true) :
    execution_request native products subjects =
      Except.ok (ExecutionRequest.mk (rootsFor products subjects) (rootsFor products subjects)) := by
  simp [execution_request, add_root_selections_ok native _ h, Except.map]

theorem rr_map_ret (l : List Root) (g : Root → PyObj) :
    _run_and_return_roots (l.map (fun r => RawRoot.mk 1 (g r))) =
      Except.ok (l.map (fun r => State.Return (g r))) := by
  induction l with
  | nil => rfl
  | cons r rest ih => simp [_run_and_return_roots, ih, Except.map]

theorem rr_ok_mem (raws : List RawRoot) (states : List State)
    (h : _run_and_return_roots raws = Except.ok states) :
    ∀ s ∈ states, s.isReturnOrThrow = true := by
  induction raws generalizing states with
  | nil =>
    simp [_run_and_return_roots] at h
    subst h
    intro s hs
    simp at hs
  | cons r rest ih =>
    by_cases h1 : r.state_tag = 1
    · simp only [_run_and_return_roots, h1, if_pos rfl] at h
      obtain ⟨a, ha, hy⟩ := exceptMap_ok _ _ _ h
      subst hy
      intro s hs
      rcases List.mem_cons.mp hs with hs | hs
      · subst hs; rfl
      · exact ih a ha s hs
    · by_cases h234 : r.state_tag = 2 ∨ r.state_tag = 3 ∨ r.state_tag = 4
      · simp only [_run_and_return_roots, if_neg h1, if_pos h234] at h
        obtain ⟨a, ha, hy⟩ := exceptMap_ok _ _ _ h
        subst hy
        intro s hs
        rcases List.mem_cons.mp hs with hs | hs
        · subst hs; rfl
        · exact ih a ha s hs
      · simp [_run_and_return_roots, if_neg h1, if_neg h234] at h

theorem zip_self_map {α β : Type} (l : List α) (g : α → β) :
    l.zip (l.map g) = l.map (fun x => (x, g x)) := by
  induction l with
  | nil => rfl
  | cons x rest ih => simp only [List.map_cons, List.zip_cons_cons, ih]

theorem unknown_nil_iff (root_products : List (Root × State)) :
    unknown_state_types root_products = [] ↔
      ∀ rs ∈ root_products, rs.2.isReturnOrThrow = true := by
  simp [unknown_state_types, List.filter_eq_nil_iff]

theorem productResults_foldl (root_products : List (Root × State))
    (m : Product → List PyObj) (q : Product) :
    (root_products.foldl
        (fun m rs => fun q => if q = rs.1.2 then m q ++ [rs.2.value] else m q) m) q =
      m q ++ ((root_products.filter (fun rs => decide (q = rs.1.2))).map
        (fun rs => rs.2.value)) := by
  induction root_products generalizing m with
  | nil => simp
  | cons rs rest ih =>
    rw [List.foldl_cons, ih]
    by_cases hq : q = rs.1.2
    · simp [hq, List.filter_cons]
    · simp [hq, List.filter_cons]

theorem productResults_eq (root_products : List (Root × State)) (q : Product) :
    productResults root_products q =
      (root_products.filter (fun rs => decide (q = rs.1.2))).map (fun rs => rs.2.value) := by
  simpa using productResults_foldl root_products (fun _ => []) q

theorem dedup_all_eq {α : Type} [DecidableEq α] (l : List α) (e : α)
    (hne : l ≠ []) (hall : ∀ x ∈ l, x = e) : l.dedup = [e] := by
  induction l with
  | nil => exact absurd rfl hne
  | cons a rest ih =>
    have ha : a = e := hall a (List.mem_cons_self a rest)
    subst ha
    cases rest with
    | nil => simp
    | cons b rest' =>
      have hb : b = a := hall b (by simp)
      have hmem : a ∈ b :: rest' := by rw [hb]; exact List.mem_cons_self a rest'
      rw [List.dedup_cons_of_mem hmem]
      exact ih (by simp) (fun x hx => hall x (List.mem_cons_of_mem a hx))

theorem filter_flatMap {α β : Type} (l : List α) (f : α → List β) (p : β → Bool) :
    (l.flatMap f).filter p = l.flatMap (fun x => (f x).filter p) := by
  induction l with
  | nil => rfl
  | cons x rest ih => simp [List.flatMap_cons, List.filter_append, ih]

theorem filter_map_products_not_mem {β : Type} (products : List Product) (p : Product)
    (g : Product → β) (key : β → Product) (hkey : ∀ x, key (g x) = x)
    (hnm : p ∉ products) :
    (products.map g).filter (fun y => decide (p = key y)) = [] := by
  induction products with
  | nil => rfl
  | cons q rest ih =>
    have hq : p ≠ q := fun h => hnm (h ▸ List.mem_cons_self q rest)
    simp only [List.map_cons, List.filter_cons, hkey, decide_eq_true_eq]
    rw [if_neg hq]
    exact ih (fun h => hnm (List.mem_cons_of_mem q h))

theorem filter_map_products_mem {β : Type} (products : List Product) (p : Product)
    (g : Product → β) (key : β → Product) (hkey : ∀ x, key (g x) = x)
    (hnd : products.Nodup) (hm : p ∈ products) :
    (products.map g).filter (fun y => decide (p = key y)) = [g p] := by
  induction products with
  | nil => simp at hm
  | cons q rest ih =>
    rcases List.mem_cons.mp hm with hpq | hp
    · subst hpq
      have hnm : p ∉ rest := (List.nodup_cons.mp hnd).1
      simp only [List.map_cons, List.filter_cons, hkey, decide_eq_true_eq]
      simp [filter_map_products_not_mem rest p g key hkey hnm]
    · have hq : p ≠ q := by
        intro h
        subst h
        exact (List.nodup_cons.mp hnd).1 hp
      simp only [List.map_cons, List.filter_cons, hkey, decide_eq_true_eq]
      rw [if_neg hq]
      exact ih (List.nodup_cons.mp hnd).2 hp

theorem rootsFor_filter (products : List Product) (subjects : List Subject)
    (st : Root → State) (p : Product) (hnd : products.Nodup) (hm : p ∈ products) :
    ((rootsFor products subjects).map (fun r => (r, st r))).filter
        (fun rs => decide (p = rs.1.2)) =
      subjects.map (fun s => ((s, p), st (s, p))) := by
  unfold rootsFor
  rw [List.map_flatMap]
  rw [filter_flatMap]
  have hinner : ∀ s : Subject,
      ((products.map (fun q => (s, q))).map (fun r => (r, st r))).filter
          (fun rs => decide (p = rs.1.2)) = [((s, p), st (s, p))] := by
    intro s
    rw [List.map_map]
    exact filter_map_products_mem products p
      (fun q => ((s, q), st (s, q))) (fun y => y.1.2) (fun _ => rfl) hnd hm
  simp only [hinner]
  induction subjects with
  | nil => rfl
  | cons s rest ih2 => simp only [List.flatMap_cons, List.map_cons, ih2, List.singleton_append]

theorem rootsFor_length (products : List Product) (subjects : List Subject) :
    (rootsFor products subjects).length = subjects.length * products.length := by
  induction subjects with
  | nil => simp [rootsFor]
  | cons s rest ih =>
    simp only [rootsFor, List.flatMap_cons, List.length_append, List.length_map] at ih ⊢
    rw [ih, List.length_cons, Nat.succ_mul, Nat.add_comm]

theorem rootsFor_getElem? (products : List Product) (subjects : List Subject)
    (i j : Nat) (hi : i < subjects.length) (hj : j < products.length) :
    (rootsFor products subjects)[i * products.length + j]? =
      some (subjects.get ⟨i, hi⟩, products.get ⟨j, hj⟩) := by
  induction subjects generalizing i with
  | nil => simp at hi
  | cons s rest ih =>
    cases i with
    | zero =>
      have hjm : j < (products.map (fun p => (s, p))).length := by
        simpa using hj
      simp only [rootsFor, List.flatMap_cons, Nat.zero_mul, Nat.zero_add]
      rw [List.getElem?_append, if_pos hjm]
      simp [List.getElem?_eq_getElem hj]
    | succ i' =>
      have hi' : i' < rest.length := Nat.lt_of_succ_lt_succ hi
      simp only [rootsFor, List.flatMap_cons]
      rw [List.getElem?_append]
      have hlen : (products.map (fun p => (s, p))).length = products.length :=
        List.length_map _ _
      have hidx : (i' + 1) * products.length + j =
          products.length + (i' * products.length + j) := by
        rw [Nat.succ_mul]
        ring
      rw [hidx, hlen, if_neg (by omega)]
      have hsub : products.length + (i' * products.length + j) - products.length =
          i' * products.length + j := by omega
      rw [hsub]
      have hrec := ih i' hi'
      simp only [rootsFor] at hrec
      rw [hrec]
      simp [List.get_cons_succ]

theorem execute_finished (native : Native) (request : ExecutionRequest)
    (raws : List RawRoot) (states : List State)
    (hrun : native.run request.registered = Except.ok raws)
    (hrr : _run_and_return_roots raws = Except.ok states) :
    execute native request = Except.ok (ExecutionResult.finished (request.roots.zip states)) := by
  simp [execute, schedule, hrun, hrr]

/-! ### Claim theorems -/

/-- C10: the mapping `products_request` returns is a `defaultdict(list)`
(modelled as a total function, so a lookup of any product never fails);
with an empty `subjects` list there are zero roots, `products_request`
succeeds with a mapping holding no entries (every lookup yields `[]`),
and `product_request(product, [])` returns the empty list rather than
raising. -/
theorem products_request_default_dict
    (native : Native) (itoe : Bool) (products : List Product) (product : Product)
    (hrun : native.run ([] : List Root) = Except.ok []) :
    (∃ m, products_request native itoe products [] = Except.ok m ∧ ∀ q, m q = []) ∧
    product_request native itoe product [] = Except.ok [] := by
  have hroots : ∀ ps : List Product, rootsFor ps [] = [] := fun _ => rfl
  have hreq : ∀ ps : List Product, execution_request native ps [] =
      Except.ok (ExecutionRequest.mk [] []) := by
    intro ps
    simpa [hroots ps] using execution_request_ok native ps []
      (by simp [hroots ps])
  have hex : execute native (ExecutionRequest.mk [] []) =
      Except.ok (ExecutionResult.finished []) := by
    simpa using execute_finished native (ExecutionRequest.mk [] []) [] [] hrun rfl
  have hpr : ∀ ps : List Product, products_request native itoe ps [] =
      Except.ok (productResults []) := by
    intro ps
    simp [products_request, hreq ps, hex, ExecutionResult.finished, unknown_state_types]
  constructor
  · exact ⟨productResults [], hpr products, fun q => rfl⟩
  · simp [product_request, hpr [product], productResults, Except.map]

/-- C10 witness at a concrete engine. -/
theorem products_request_default_dict_witness :
    (∃ m, products_request (constNative []) true [3, 4] [] = Except.ok m ∧ ∀ q, m q = []) ∧
    product_request (constNative []) true 3 [] = Except.ok [] :=
  products_request_default_dict (constNative []) true [3, 4] 3 rfl

/-- C7: `execute` wraps `schedule`: a successful schedule becomes
`ExecutionResult.finished` with the per-root list, a `TaskError` raised
by `schedule` becomes `ExecutionResult.failure`, and the two result
forms are mutually exclusive: a finished result carries `error = none`,
a failure result carries `root_products = none`. -/
theorem execute_result_forms :
    (∀ (native : Native) (request : ExecutionRequest) (rps : List (Root × State)),
      schedule native request = Except.ok rps →
        execute native request = Except.ok (ExecutionResult.finished rps)) ∧
    (∀ (native : Native) (request : ExecutionRequest) (e : PyObj),
      schedule native request = Except.error e → pyIsTaskError e = true →
        execute native request = Except.ok (ExecutionResult.failure e)) ∧
    (∀ rps : List (Root × State),
      (ExecutionResult.finished rps).error = none ∧
      (ExecutionResult.finished rps).root_products = some rps) ∧
    (∀ e : PyObj,
      (ExecutionResult.failure e).error = some e ∧
      (ExecutionResult.failure e).root_products = none) := by
  refine ⟨?_, ?_, ?_, ?_⟩
  · intro native request rps h
    simp [execute, h]
  · intro native request e h hte
    simp [execute, h, hte]
  · intro rps
    exact ⟨rfl, rfl⟩
  · intro e
    exact ⟨rfl, rfl⟩

/-- C7 witness at a concrete engine and request. -/
theorem execute_result_forms_witness :
    execute (constNative []) (ExecutionRequest.mk [] []) =
      Except.ok (ExecutionResult.finished []) :=
  execute_result_forms.1 (constNative []) (ExecutionRequest.mk [] []) [] rfl

/-- C9: Scheduler construction fails with the `ValueError` before any
rule registration or engine construction whenever the execution options
have `remote_execution_server` set (truthy) but `remote_store_server`
unset (falsy): the effect list is empty and the result is the error. -/
theorem scheduler_init_remote_guard
    (options : ExecutionOptions) (ruleCount : Nat) (validate : Bool)
    (hre : pyTruthyOptStr options.remote_execution_server = true)
    (hrs : pyTruthyOptStr options.remote_store_server = false) :
    scheduler_init options ruleCount validate =
      ([], Except.error
        "Cannot set remote execution server without setting remote store server") := by
  simp [scheduler_init, hre, hrs]

/-- C9 witness at concrete options. -/
theorem scheduler_init_remote_guard_witness :
    scheduler_init (ExecutionOptions.mk (some "srv") none) 3 true =
      ([], Except.error
        "Cannot set remote execution server without setting remote store server") :=
  scheduler_init_remote_guard (ExecutionOptions.mk (some "srv") none) 3 true rfl rfl

/-- C8: `invalidate_files(filenames)` passes to the engine invalidation
exactly the set of every given path together with the parent directory
of every given path (a `Finset`, hence each path at most once, and
duplicating the input list yields the same set), and returns the
engine-reported invalidated-node count on that set. -/
theorem invalidate_files_set (native : Native) (direct : List String) :
    invalidate_files native direct =
      native.graph_invalidate (direct.toFinset ∪ (direct.map dirname).toFinset) ∧
    (∀ x, x ∈ direct.toFinset ∪ (direct.map dirname).toFinset ↔
      (x ∈ direct ∨ ∃ f ∈ direct, dirname f = x)) ∧
    (direct ++ direct).toFinset ∪ ((direct ++ direct).map dirname).toFinset =
      direct.toFinset ∪ (direct.map dirname).toFinset := by
  refine ⟨rfl, ?_, ?_⟩
  · intro x
    simp [List.mem_toFinset, List.mem_map]
  · apply Finset.ext
    intro x
    simp [List.mem_toFinset, List.mem_map]

/-- C6: the front-end produces only the two outcome kinds `Return` and
`Throw`: (1) if every raw tag is recognized (1, 2, 3 or 4),
`_run_and_return_roots` succeeds and maps tag 1 to `Return(value)` and
tags 2, 3, 4 to `Throw(error)`; (2) any unrecognized tag makes
`_run_and_return_roots` raise a `ValueError` rather than coerce; (3)
the state-validation guard of `products_request` (its raise is taken
exactly when `unknown_state_types` is non-empty) passes precisely when
every outcome is a `Return` or a `Throw`. -/
theorem outcome_normalization :
    (∀ raws : List RawRoot,
      (∀ r ∈ raws, r.state_tag = 1 ∨ r.state_tag = 2 ∨ r.state_tag = 3 ∨ r.state_tag = 4) →
        _run_and_return_roots raws = Except.ok (raws.map (fun r =>
          if r.state_tag = 1 then State.Return r.state_value
          else State.Throw r.state_value))) ∧
    (∀ raws : List RawRoot,
      (∃ r ∈ raws,
        ¬(r.state_tag = 1 ∨ r.state_tag = 2 ∨ r.state_tag = 3 ∨ r.state_tag = 4)) →
      ∃ msg, _run_and_return_roots raws = Except.error (valueErrorObj msg)) ∧
    (∀ root_products : List (Root × State),
      unknown_state_types root_products = [] ↔
        ∀ rs ∈ root_products, rs.2.isReturnOrThrow = true) := by
  refine ⟨?_, ?_, unknown_nil_iff⟩
  · intro raws h
    induction raws with
    | nil => rfl
    | cons r rest ih =>
      have hrest := ih (fun x hx => h x (List.mem_cons_of_mem r hx))
      rcases h r (List.mem_cons_self r rest) with h1 | h234
      · simp [_run_and_return_roots, h1, hrest, Except.map]
      · have hn1 : ¬ r.state_tag = 1 := by rcases h234 with h | h | h <;> omega
        simp [_run_and_return_roots, hn1, h234, hrest, Except.map]
  · intro raws h
    induction raws with
    | nil => simp at h
    | cons r rest ih =>
      obtain ⟨x, hx, hbad⟩ := h
      rcases List.mem_cons.mp hx with hxr | hxrest
      · subst hxr
        have h1 : ¬ x.state_tag = 1 := fun hc => hbad (Or.inl hc)
        have h234 : ¬ (x.state_tag = 2 ∨ x.state_tag = 3 ∨ x.state_tag = 4) :=
          fun hc => hbad (Or.inr hc)
        exact ⟨"Unrecognized State type `" ++ toString x.state_tag ++ "` on: <raw root>",
          by simp [_run_and_return_roots, h1, h234]⟩
      · obtain ⟨msg, hmsg⟩ := ih ⟨x, hxrest, hbad⟩
        by_cases h1 : r.state_tag = 1
        · exact ⟨msg, by simp [_run_and_return_roots, h1, hmsg, Except.map]⟩
        · by_cases h234 : r.state_tag = 2 ∨ r.state_tag = 3 ∨ r.state_tag = 4
          · exact ⟨msg, by simp [_run_and_return_roots, h1, h234, hmsg, Except.map]⟩
          · exact ⟨"Unrecognized State type `" ++ toString r.state_tag ++ "` on: <raw root>",
              by simp [_run_and_return_roots, h1, h234]⟩

/-- C6 witness: tag 1 becomes Return and tag 3 becomes Throw at a
concrete raw-root list. -/
theorem outcome_normalization_witness :
    _run_and_return_roots [RawRoot.mk 1 (PyObj.val 5), RawRoot.mk 3 (PyObj.val 6)] =
      Except.ok [State.Return (PyObj.val 5), State.Throw (PyObj.val 6)] := by
  have h := outcome_normalization.1
    [RawRoot.mk 1 (PyObj.val 5), RawRoot.mk 3 (PyObj.val 6)] (by decide)
  simpa using h

/-- C2: `execution_request(products, subjects)` builds its roots as all
pairwise (subject, product) combinations in subject-major,
product-minor order (root number `i * len(products) + j` is
`(subjects[i], products[j])`, and for subjects `[s1, s2]` and products
`[p1, p2]` the roots are exactly
`[(s1,p1), (s1,p2), (s2,p1), (s2,p2)]`), and registers each root with
the engine in that same order (the registration log equals the roots
list). -/
theorem execution_request_subject_major
    (native : Native) (products : List Product) (subjects : List Subject)
    (hres : ∀ r ∈ rootsFor products subjects, native.resolvable r = true) :
    ∃ req, execution_request native products subjects = Except.ok req ∧
      req.registered = req.roots ∧
      req.roots.length = subjects.length * products.length ∧
      (∀ (i j : Nat) (hi : i < subjects.length) (hj : j < products.length),
        req.roots[i * products.length + j]? =
          some (subjects.get ⟨i, hi⟩, products.get ⟨j, hj⟩)) ∧
      (∀ s1 s2 p1 p2, subjects = [s1, s2] → products = [p1, p2] →
        req.roots = [(s1, p1), (s1, p2), (s2, p1), (s2, p2)]) := by
  refine ⟨ExecutionRequest.mk (rootsFor products subjects) (rootsFor products subjects),
    execution_request_ok native products subjects hres, rfl,
    rootsFor_length products subjects, ?_, ?_⟩
  · intro i j hi hj
    exact rootsFor_getElem? products subjects i j hi hj
  · intro s1 s2 p1 p2 hs hp
    subst hs
    subst hp
    rfl

/-- C2 witness at a concrete engine, subjects and products. -/
theorem execution_request_subject_major_witness :
    ∃ req, execution_request (constNative []) [1, 2] [3, 4] = Except.ok req ∧
      req.registered = req.roots ∧
      req.roots.length = ([3, 4] : List Subject).length * ([1, 2] : List Product).length ∧
      (∀ (i j : Nat) (hi : i < ([3, 4] : List Subject).length)
          (hj : j < ([1, 2] : List Product).length),
        req.roots[i * ([1, 2] : List Product).length + j]? =
          some (([3, 4] : List Subject).get ⟨i, hi⟩, ([1, 2] : List Product).get ⟨j, hj⟩)) ∧
      (∀ s1 s2 p1 p2, ([3, 4] : List Subject) = [s1, s2] →
          ([1, 2] : List Product) = [p1, p2] →
        req.roots = [(s1, p1), (s1, p2), (s2, p1), (s2, p2)]) :=
  execution_request_subject_major (constNative []) [1, 2] [3, 4] (by decide)

theorem products_request_throw_branch
    (native : Native) (itoe : Bool) (products : List Product) (subjects : List Subject)
    (raws : List RawRoot) (states : List State) (t : State) (rest : List State)
    (hres : ∀ r ∈ rootsFor products subjects, native.resolvable r = true)
    (hrun : native.run (rootsFor products subjects) = Except.ok raws)
    (hrr : _run_and_return_roots raws = Except.ok states)
    (hthrow : (((rootsFor products subjects).zip states).map Prod.snd).filter State.isThrow =
      t :: rest) :
    products_request native itoe products subjects =
      (if itoe then
        Except.error (executionErrorObj
          ("Received unexpected Throw state(s):\n" ++
            String.intercalate "\n" (native.traceLines (rootsFor products subjects))))
      else
        if (((t :: rest).map State.exc).dedup).length = 1 then
          Except.error t.exc
        else
          Except.error
            (executionErrorObj (multipleExceptionsMsg (((t :: rest).map State.exc).dedup)))) := by
  have hreq := execution_request_ok native products subjects hres
  have hex := execute_finished native
    (ExecutionRequest.mk (rootsFor products subjects) (rootsFor products subjects))
    raws states hrun hrr
  have hunk : unknown_state_types ((rootsFor products subjects).zip states) = [] := by
    rw [unknown_nil_iff]
    intro rs hrs
    exact rr_ok_mem raws states hrr rs.2 (List.of_mem_zip hrs).2
  simp only [products_request, hreq, hex, ExecutionResult.finished]
  simp [hunk, hthrow]

/-- C5: with trace-on-error enabled and at least one Throw among the
root outcomes, `products_request` raises exactly one aggregate
`ExecutionError` whose message carries the dependency trace computed
for the whole request (the engine trace over all registered roots of
the request, not only the throwing ones); no underlying per-root error
object is raised in this mode. -/
theorem products_request_trace_on_error
    (native : Native) (products : List Product) (subjects : List Subject)
    (raws : List RawRoot) (states : List State) (t : State) (rest : List State)
    (hres : ∀ r ∈ rootsFor products subjects, native.resolvable r = true)
    (hrun : native.run (rootsFor products subjects) = Except.ok raws)
    (hrr : _run_and_return_roots raws = Except.ok states)
    (hthrow : (((rootsFor products subjects).zip states).map Prod.snd).filter State.isThrow =
      t :: rest) :
    products_request native true products subjects =
      Except.error (executionErrorObj
        ("Received unexpected Throw state(s):\n" ++
          String.intercalate "\n" (native.traceLines (rootsFor products subjects)))) := by
  simpa using products_request_throw_branch native true products subjects
    raws states t rest hres hrun hrr hthrow

/-- C5 witness: a single throwing root at a concrete engine. -/
theorem products_request_trace_on_error_witness :
    products_request (constNative [RawRoot.mk 2 (PyObj.exc 9 "RuntimeError" "boom" false)])
        true [0] [5] =
      Except.error (executionErrorObj
        ("Received unexpected Throw state(s):\n" ++
          String.intercalate "\n"
            ((constNative [RawRoot.mk 2 (PyObj.exc 9 "RuntimeError" "boom" false)]).traceLines
              (rootsFor [0] [5])))) :=
  products_request_trace_on_error
    (constNative [RawRoot.mk 2 (PyObj.exc 9 "RuntimeError" "boom" false)]) [0] [5]
    [RawRoot.mk 2 (PyObj.exc 9 "RuntimeError" "boom" false)]
    [State.Throw (PyObj.exc 9 "RuntimeError" "boom" false)]
    (State.Throw (PyObj.exc 9 "RuntimeError" "boom" false)) []
    (by decide) rfl rfl rfl

/-- C3: with trace-on-error disabled, when the Throw outcomes are all
backed by one single distinct error object `e` (Python set
deduplication is by identity, modelled by structural equality of
`PyObj`), `products_request` re-raises exactly that object `e`
unmodified, not a wrapper around it. -/
theorem products_request_single_error
    (native : Native) (products : List Product) (subjects : List Subject)
    (raws : List RawRoot) (states : List State) (t : State) (rest : List State) (e : PyObj)
    (hres : ∀ r ∈ rootsFor products subjects, native.resolvable r = true)
    (hrun : native.run (rootsFor products subjects) = Except.ok raws)
    (hrr : _run_and_return_roots raws = Except.ok states)
    (hthrow : (((rootsFor products subjects).zip states).map Prod.snd).filter State.isThrow =
      t :: rest)
    (hall : ∀ x ∈ (t :: rest).map State.exc, x = e) :
    products_request native false products subjects = Except.error e := by
  have hbr := products_request_throw_branch native false products subjects
    raws states t rest hres hrun hrr hthrow
  have hded : ((t :: rest).map State.exc).dedup = [e] :=
    dedup_all_eq _ e (by simp) hall
  have hte : t.exc = e := hall t.exc (by simp)
  rw [hbr, if_neg (by simp), hded]
  simp [hte]

/-- C3 witness: two Throws sharing the same error object. -/
theorem products_request_single_error_witness :
    products_request
        (constNative [RawRoot.mk 2 (PyObj.exc 9 "RuntimeError" "boom" false),
          RawRoot.mk 4 (PyObj.exc 9 "RuntimeError" "boom" false)])
        false [0] [5, 6] =
      Except.error (PyObj.exc 9 "RuntimeError" "boom" false) :=
  products_request_single_error
    (constNative [RawRoot.mk 2 (PyObj.exc 9 "RuntimeError" "boom" false),
      RawRoot.mk 4 (PyObj.exc 9 "RuntimeError" "boom" false)])
    [0] [5, 6]
    [RawRoot.mk 2 (PyObj.exc 9 "RuntimeError" "boom" false),
      RawRoot.mk 4 (PyObj.exc 9 "RuntimeError" "boom" false)]
    [State.Throw (PyObj.exc 9 "RuntimeError" "boom" false),
      State.Throw (PyObj.exc 9 "RuntimeError" "boom" false)]
    (State.Throw (PyObj.exc 9 "RuntimeError" "boom" false))
    [State.Throw (PyObj.exc 9 "RuntimeError" "boom" false)]
    (PyObj.exc 9 "RuntimeError" "boom" false)
    (by decide) rfl rfl rfl (by decide)

/-- C4: with trace-on-error disabled, when the Throw outcomes are
backed by two or more distinct error objects, `products_request` raises
a single aggregate `ExecutionError` whose message lists the distinct
underlying errors: the deduplicated error list has no duplicates (each
distinct error appears exactly once), contains exactly the errors
underlying the Throws, and each is rendered as its type name and
message in the aggregate message. -/
theorem products_request_multiple_errors
    (native : Native) (products : List Product) (subjects : List Subject)
    (raws : List RawRoot) (states : List State) (t : State) (rest : List State)
    (hres : ∀ r ∈ rootsFor products subjects, native.resolvable r = true)
    (hrun : native.run (rootsFor products subjects) = Except.ok raws)
    (hrr : _run_and_return_roots raws = Except.ok states)
    (hthrow : (((rootsFor products subjects).zip states).map Prod.snd).filter State.isThrow =
      t :: rest)
    (htwo : 2 ≤ (((t :: rest).map State.exc).dedup).length) :
    products_request native false products subjects =
      Except.error
        (executionErrorObj (multipleExceptionsMsg (((t :: rest).map State.exc).dedup))) ∧
    (((t :: rest).map State.exc).dedup).Nodup ∧
    (∀ x, x ∈ ((t :: rest).map State.exc).dedup ↔ x ∈ (t :: rest).map State.exc) := by
  have hbr := products_request_throw_branch native false products subjects
    raws states t rest hres hrun hrr hthrow
  have hone : ¬ ((((t :: rest).map State.exc).dedup).length = 1) := by omega
  refine ⟨?_, List.nodup_dedup _, fun x => List.mem_dedup⟩
  rw [hbr, if_neg (by simp), if_neg hone]

/-- C4 witness: two Throws with distinct error objects. -/
theorem products_request_multiple_errors_witness :
    products_request
        (constNative [RawRoot.mk 2 (PyObj.exc 9 "RuntimeError" "boom" false),
          RawRoot.mk 2 (PyObj.exc 8 "KeyError" "k" false)])
        false [0] [5, 6] =
      Except.error
        (executionErrorObj (multipleExceptionsMsg
          (((State.Throw (PyObj.exc 9 "RuntimeError" "boom" false) ::
              [State.Throw (PyObj.exc 8 "KeyError" "k" false)]).map State.exc).dedup))) ∧
    ((((State.Throw (PyObj.exc 9 "RuntimeError" "boom" false) ::
        [State.Throw (PyObj.exc 8 "KeyError" "k" false)]).map State.exc).dedup)).Nodup ∧
    (∀ x, x ∈ (((State.Throw (PyObj.exc 9 "RuntimeError" "boom" false) ::
          [State.Throw (PyObj.exc 8 "KeyError" "k" false)]).map State.exc).dedup) ↔
        x ∈ (State.Throw (PyObj.exc 9 "RuntimeError" "boom" false) ::
          [State.Throw (PyObj.exc 8 "KeyError" "k" false)]).map State.exc) :=
  products_request_multiple_errors
    (constNative [RawRoot.mk 2 (PyObj.exc 9 "RuntimeError" "boom" false),
      RawRoot.mk 2 (PyObj.exc 8 "KeyError" "k" false)])
    [0] [5, 6]
    [RawRoot.mk 2 (PyObj.exc 9 "RuntimeError" "boom" false),
      RawRoot.mk 2 (PyObj.exc 8 "KeyError" "k" false)]
    [State.Throw (PyObj.exc 9 "RuntimeError" "boom" false),
      State.Throw (PyObj.exc 8 "KeyError" "k" false)]
    (State.Throw (PyObj.exc 9 "RuntimeError" "boom" false))
    [State.Throw (PyObj.exc 8 "KeyError" "k" false)]
    (by decide) rfl rfl rfl (by decide)

/-- C1 (amended: the products list must contain no duplicate product,
see the counterexample below): for non-empty `products` without
duplicates and non-empty `subjects` where every root is resolvable and
the engine returns a `Return` of `f root` for every root,
`products_request` succeeds and, for every product `p` in `products`,
the value list is exactly the values for the subjects in subject order:
it has length `len(subjects)` and its `i`-th element is the value
computed for the `i`-th subject. -/
theorem products_request_all_returns
    (native : Native) (itoe : Bool) (f : Root → Nat)
    (products : List Product) (subjects : List Subject)
    (_hp : products ≠ []) (_hs : subjects ≠ []) (hnd : products.Nodup)
    (hres : ∀ r ∈ rootsFor products subjects, native.resolvable r = true)
    (hrun : native.run (rootsFor products subjects) =
      Except.ok ((rootsFor products subjects).map (fun r => RawRoot.mk 1 (PyObj.val (f r))))) :
    ∃ m, products_request native itoe products subjects = Except.ok m ∧
      ∀ p ∈ products,
        m p = subjects.map (fun s => PyObj.val (f (s, p))) ∧
        (m p).length = subjects.length ∧
        (∀ i : Nat, i < subjects.length →
          (m p)[i]? = (subjects[i]?).map (fun s => PyObj.val (f (s, p)))) := by
  have hreq := execution_request_ok native products subjects hres
  have hrrs := rr_map_ret (rootsFor products subjects) (fun r => PyObj.val (f r))
  have hex := execute_finished native
    (ExecutionRequest.mk (rootsFor products subjects) (rootsFor products subjects))
    ((rootsFor products subjects).map (fun r => RawRoot.mk 1 (PyObj.val (f r))))
    ((rootsFor products subjects).map (fun r => State.Return (PyObj.val (f r))))
    hrun hrrs
  have hzip := zip_self_map (rootsFor products subjects)
    (fun r => State.Return (PyObj.val (f r)))
  have hunk : unknown_state_types
      ((rootsFor products subjects).map
        (fun r => (r, State.Return (PyObj.val (f r))))) = [] := by
    rw [unknown_nil_iff]
    intro rs hrs
    rcases List.mem_map.mp hrs with ⟨r, _, hr⟩
    rw [← hr]
    rfl
  have hfil : ((rootsFor products subjects).map
        (Prod.snd ∘ fun r => (r, State.Return (PyObj.val (f r))))).filter
      State.isThrow = [] := by
    rw [List.filter_eq_nil_iff]
    intro s hsavail
    rcases List.mem_map.mp hsavail with ⟨r, _, hreq2⟩
    rw [← hreq2]
    simp [State.isThrow]
  refine ⟨productResults ((rootsFor products subjects).map
      (fun r => (r, State.Return (PyObj.val (f r))))), ?_, ?_⟩
  · simp only [products_request, hreq, hex, ExecutionResult.finished, hzip]
    simp [hunk, hfil]
  · intro p hpmem
    have hmp : productResults ((rootsFor products subjects).map
          (fun r => (r, State.Return (PyObj.val (f r))))) p =
        subjects.map (fun s => PyObj.val (f (s, p))) := by
      rw [productResults_eq,
        rootsFor_filter products subjects (fun r => State.Return (PyObj.val (f r))) p hnd hpmem,
        List.map_map]
      rfl
    refine ⟨hmp, by simp [hmp], ?_⟩
    intro i hi
    simp [hmp]

/-- C1 witness at a concrete engine computing `subject + product`. -/
theorem products_request_all_returns_witness :
    ∃ m, products_request (fnNative (fun r => r.1 + r.2)) false [2, 3] [10, 11] =
        Except.ok m ∧
      ∀ p ∈ ([2, 3] : List Product),
        m p = ([10, 11] : List Subject).map (fun s => PyObj.val ((fun r : Root => r.1 + r.2) (s, p))) ∧
        (m p).length = ([10, 11] : List Subject).length ∧
        (∀ i : Nat, i < ([10, 11] : List Subject).length →
          (m p)[i]? = (([10, 11] : List Subject)[i]?).map
            (fun s => PyObj.val ((fun r : Root => r.1 + r.2) (s, p)))) :=
  products_request_all_returns (fnNative (fun r => r.1 + r.2)) false
    (fun r => r.1 + r.2) [2, 3] [10, 11]
    (by decide) (by decide) (by decide) (by decide) rfl

/-- C1 counterexample to the claim as stated: with the duplicated
products list `[0, 0]` and the single subject `[5]`, every root is
resolvable and every root outcome is a `Return` (the engine yields the
tag-1 raw root `7` for each of the two roots `(5,0), (5,0)`), yet the
value list for product `0` has length 2, not `len(subjects) = 1`: the
claim needs products to be duplicate-free. -/
theorem products_request_len_counterexample :
    (products_request (constNative [RawRoot.mk 1 (PyObj.val 7), RawRoot.mk 1 (PyObj.val 7)])
        false [0, 0] [5]).map (fun m => (m 0).length) = Except.ok 2 ∧
    ([5] : List Subject).length = 1 ∧
    (0 : Product) ∈ ([0, 0] : List Product) ∧
    ([0, 0] : List Product) ≠ [] ∧ ([5] : List Subject) ≠ [] := by
  refine ⟨rfl, rfl, by decide, by decide, by decide⟩

end Pants
